import Mathlib

/-!
Verification of the FermiNet excerpt: the Hartree-Fock pretraining module
(`ferminet/pretrain.py`) and the periodic-boundary-condition Hamiltonian test
(`ferminet/pbc/tests/hamiltonian_test.py`).

The embedding models the Python code shallowly:

* external collaborators (`ferminet.utils.scf.Scf`, `mcmc.mh_update`,
  `jax.value_and_grad`, the optax optimizer, `kfac_jax.utils.p_split`) are
  abstract function parameters;
* arrays are dependent functions over `Fin`-indexed shapes, with rational
  (or, where logarithms are required, real) entries;
* Python dynamic typing and exceptions are modelled with a small datatype of
  runtime objects and `Except`.
-/

namespace Ferminet

/-! ### Hartree-Fock import: `get_hf` (pretrain.py lines 42-64) -/

/-- Modelled from the spec: `ferminet.utils.scf.Scf` — the "Hartree-Fock import
via an external quantum-chemistry package" treated as an external collaborator —
is not part of the excerpt.  We record exactly what `get_hf` observes about the
object: which constructor arguments it was built from.  `Mole` stands for
`pyscf.gto.Mole` and `Molecule` for the internal molecule format. -/
inductive ScfSource (Mole Molecule : Type) where
  | fromPyscfMol (m : Mole) (restricted : Bool)
  | fromMolecule (molecule : Option Molecule) (nspins : Option (Nat × Nat))
      (basis : Option String) (restricted : Bool)

/-- Modelled from the spec: the external `scf.Scf` object, together with a count
of how many times its `run()` method (the self-consistent-field solve) has been
called on it. -/
structure Scf (Mole Molecule : Type) where
  source : ScfSource Mole Molecule
  runCount : Nat

/-- Modelled from the spec: calling `run()` performs the self-consistent-field
calculation; in the model it increments the run counter. -/
def Scf.run {Mole Molecule : Type} (s : Scf Mole Molecule) : Scf Mole Molecule :=
  { s with runCount := s.runCount + 1 }

/-- Embedding of `get_hf` (pretrain.py lines 42-64): build an `Scf` object from
`pyscf_mol` when one is supplied and from `molecule`, `nspins` and `basis`
otherwise, call `run()` on it, and return it. -/
def get_hf {Mole Molecule : Type} (molecule : Option Molecule)
    (nspins : Option (Nat × Nat)) (basis : Option String)
    (pyscf_mol : Option Mole) (restricted : Bool) : Scf Mole Molecule :=
  let scf_approx : Scf Mole Molecule :=
    match pyscf_mol with
    | some m => ⟨ScfSource.fromPyscfMol m restricted, 0⟩
    | none => ⟨ScfSource.fromMolecule molecule nspins basis restricted, 0⟩
  scf_approx.run

/-! ### Input validation of `eval_orbitals` (pretrain.py lines 84-88) -/

/-- Model of the Python-level argument `pos` passed to `eval_orbitals`: whether
it is a NumPy array, whether it supports a `copy()` method (JAX arrays do), and
the array payload itself. -/
structure PyPos (α : Type) where
  isNumpyArray : Bool
  hasCopyMethod : Bool
  value : α

/-- Model of the Python exceptions involved in the `eval_orbitals` input check:
an `AttributeError`, or a `ValueError` chained (`raise ... from exc`) from a
cause. -/
inductive PyError where
  | attributeError
  | valueErrorFrom (cause : PyError)

/-- Embedding of the input check of `eval_orbitals` (pretrain.py lines 84-88):
if `pos` is not a NumPy array, call `pos.copy()`; when that raises
`AttributeError` (no `copy` method), raise `ValueError` chained from it.
On success the (possibly copied) array payload is handed to the array core. -/
def eval_orbitals_check {α : Type} (pos : PyPos α) : Except PyError α :=
  if pos.isNumpyArray then Except.ok pos.value
  else if pos.hasCopyMethod then Except.ok pos.value
  else Except.error (PyError.valueErrorFrom PyError.attributeError)

/-! ### PBC local energy (hamiltonian_test.py lines 31-84) -/

/-- Modelled from the spec: `ferminet.pbc.hamiltonian.local_energy` (together
with the PBC feature layer `make_pbc_feature_layer` and the multiwave envelope)
is not part of the excerpt; only its test is.  Per the spec, the PBC Hamiltonian
(kinetic plus potential energy with "periodic image summation", an Ewald-type
sum) evaluates the wavefunction through the periodic feature layer, so with the
lattice equal to the 3x3 identity it depends on the electron positions only
through lattice-periodic quantities: the electron-atom and electron-electron
displacement coordinates reduced to the unit cell (their fractional parts).
`g` stands for the remainder of the computation (network evaluation, second
derivatives, Ewald sums), an arbitrary function of those periodic features. -/
def local_energy {ne natom : ℕ}
    (g : (Fin ne → Fin natom → Fin 3 → ℚ) → (Fin ne → Fin ne → Fin 3 → ℚ) → ℚ)
    (atoms : Fin natom → Fin 3 → ℚ) (xs : Fin ne → Fin 3 → ℚ) : ℚ :=
  g (fun i a c => Int.fract (xs i c - atoms a c))
    (fun i j c => Int.fract (xs i c - xs j c))

/-- Displace the single electron `e` by the integer lattice vector `v` (the
lattice being the identity, lattice vectors are exactly the integer vectors),
as `xs.at[e_idx].add(randvec)` does in the test. -/
def displace {ne : ℕ} (xs : Fin ne → Fin 3 → ℚ) (e : Fin ne) (v : Fin 3 → ℤ) :
    Fin ne → Fin 3 → ℚ :=
  fun i c => if i = e then xs i c + (v c : ℚ) else xs i c

/-! ### Array core of `eval_orbitals` (pretrain.py lines 89-99) -/

/-- Embedding of the reshape `pos = np.reshape(pos, [-1, 3])` (pretrain.py
line 91): an array of shape `(..., nelec*3)` viewed, row-major, as an array of
shape `(..., nelec, 3)` of per-electron coordinates; the leading dimensions are
an arbitrary index type `ι`. -/
def reshape_electrons {α ι : Type} {nelec : ℕ} (pos : ι → Fin (nelec * 3) → α) :
    (ι × Fin nelec) → Fin 3 → α :=
  fun p c => pos p.1 ⟨3 * (p.2 : ℕ) + (c : ℕ), by
    have h1 := p.2.isLt; have h2 := c.isLt; omega⟩

/-- Embedding of the array core of `eval_orbitals` (pretrain.py lines 89-99).
`eval_mos` models `scf_approx.eval_mos`, which maps the `(batch*nelec, 3)`
positions to a pair of `(batch*nelec, nbasis)` molecular-orbital arrays (alpha
and beta channels).  The result slices out, per the Aufbau principle, the
occupied alpha block `mos[0][..., :na, :na]` and beta block
`mos[1][..., na:, :nb]`. -/
def eval_orbitals {α ι : Type} (na nb nbasis : ℕ)
    (hna : na ≤ nbasis) (hnb : nb ≤ nbasis)
    (eval_mos : ((ι × Fin (na + nb)) → Fin 3 → α) →
      ((ι × Fin (na + nb)) → Fin nbasis → α) × ((ι × Fin (na + nb)) → Fin nbasis → α))
    (pos : ι → Fin ((na + nb) * 3) → α) :
    (ι → Fin na → Fin na → α) × (ι → Fin nb → Fin nb → α) :=
  let mos := eval_mos (reshape_electrons pos)
  (fun b i j => mos.1 (b, ⟨(i : ℕ), by have := i.isLt; omega⟩)
      ⟨(j : ℕ), by have := j.isLt; omega⟩,
   fun b i j => mos.2 (b, ⟨na + (i : ℕ), by have := i.isLt; omega⟩)
      ⟨(j : ℕ), by have := j.isLt; omega⟩)

/-! ### `eval_slater` (pretrain.py lines 102-120) -/

/-- Model of `np.linalg.slogdet`: the sign of the determinant (one of -1, 0, 1)
together with the natural logarithm of its absolute value. -/
noncomputable def slogdet {n : ℕ} (M : Matrix (Fin n) (Fin n) ℝ) : ℝ × ℝ :=
  (Real.sign M.det, Real.log |M.det|)

/-- Embedding of `eval_slater` (pretrain.py lines 102-120): evaluate the
occupied orbital matrices with `eval_orbitals`, take `slogdet` of each channel
(batched over the leading dimensions), and return the product of the signs
together with the sum of the log-absolute-determinants. -/
noncomputable def eval_slater {ι : Type} (na nb nbasis : ℕ)
    (hna : na ≤ nbasis) (hnb : nb ≤ nbasis)
    (eval_mos : ((ι × Fin (na + nb)) → Fin 3 → ℝ) →
      ((ι × Fin (na + nb)) → Fin nbasis → ℝ) × ((ι × Fin (na + nb)) → Fin nbasis → ℝ))
    (pos : ι → Fin ((na + nb) * 3) → ℝ) : (ι → ℝ) × (ι → ℝ) :=
  let matrices := eval_orbitals na nb nbasis hna hnb eval_mos pos
  (fun b => (slogdet (Matrix.of (matrices.1 b))).1 * (slogdet (Matrix.of (matrices.2 b))).1,
   fun b => (slogdet (Matrix.of (matrices.1 b))).2 + (slogdet (Matrix.of (matrices.2 b))).2)

/-! ### Pretraining (pretrain.py lines 123-264)

Types: `P` network parameter trees, `E` the envelope-parameter subtree
(`params['envelope']`, extracted by `envelope_of`), `D` a per-device batch of
MCMC configurations, `S` optimizer state, `K` RNG keys.  `B` is the batch size,
`ND` the number of determinants in the network, `na`/`nb` the number of alpha
and beta electrons.  Orbital arrays have shape `(B, ND, m, m)` and target
arrays shape `(B, m, m)`, modelled as `Fin`-indexed functions with rational
entries.  The external collaborators — `jnp.exp`, `constants.pmean` (scalar and
tree), `jax.value_and_grad`'s gradient, the optax `optimizer_update` and
`optax.apply_updates`, and `mcmc.mh_update` — are abstract function
parameters. -/

/-- `jnp.mean` of an array of shape `(B, ND, m, m)`: the sum of all entries
divided by the number of entries. -/
def arrMean {B ND m : ℕ} (f : Fin B → Fin ND → Fin m → Fin m → ℚ) : ℚ :=
  (∑ b, ∑ d, ∑ i, ∑ j, f b d i j) / (B * ND * m * m)

/-- `jnp.concatenate(..., axis=-1)` of two matrices with equal row counts. -/
def hcat {r c1 c2 : ℕ} (M : Fin r → Fin c1 → ℚ) (N : Fin r → Fin c2 → ℚ) :
    Fin r → Fin (c1 + c2) → ℚ :=
  fun i j =>
    if h : (j : ℕ) < c1 then M i ⟨j, h⟩
    else N i ⟨(j : ℕ) - c1, by have := j.isLt; omega⟩

/-- `jnp.concatenate(..., axis=-2)` of two matrices with equal column counts. -/
def vcat {r1 r2 c : ℕ} (M : Fin r1 → Fin c → ℚ) (N : Fin r2 → Fin c → ℚ) :
    Fin (r1 + r2) → Fin c → ℚ :=
  fun i j =>
    if h : (i : ℕ) < r1 then M ⟨i, h⟩ j
    else N ⟨(i : ℕ) - r1, by have := i.isLt; omega⟩ j

/-- The combined target built in the `full_det` branch of `loss_fn`
(pretrain.py lines 162-165): concatenate `target[0]` with a zero block along
the last axis, likewise a zero block with `target[1]`, and stack the two
along the second-to-last axis. -/
def combined_target {na nb : ℕ} (t0 : Fin na → Fin na → ℚ)
    (t1 : Fin nb → Fin nb → ℚ) : Fin (na + nb) → Fin (na + nb) → ℚ :=
  vcat (hcat t0 (fun _ _ => 0)) (hcat (fun _ _ => 0) t1)

/-- The block-diagonal matrix described by the spec claim: alpha block
top-left, beta block bottom-right, zeros elsewhere. -/
def spec_block_diag {na nb : ℕ} (t0 : Fin na → Fin na → ℚ)
    (t1 : Fin nb → Fin nb → ℚ) : Fin (na + nb) → Fin (na + nb) → ℚ :=
  fun i j =>
    if h : (i : ℕ) < na ∧ (j : ℕ) < na then t0 ⟨i, h.1⟩ ⟨j, h.2⟩
    else if h2 : na ≤ (i : ℕ) ∧ na ≤ (j : ℕ) then
      t1 ⟨(i : ℕ) - na, by have := i.isLt; omega⟩ ⟨(j : ℕ) - na, by have := j.isLt; omega⟩
    else 0

/-- Embedding of `loss_fn` (pretrain.py lines 155-173) in the `full_det=False`
case: `n` is the summed last dimension of the targets, the envelope factor is
`exp(batch_envelope_fn(p['envelope'], x) / n)` broadcast over determinants and
matrix entries, and the result is the `pmean` of the sum over the two spin
channels of the mean squared difference between the (determinant-broadcast)
target and the envelope-scaled orbitals. -/
def loss_fn_split {P E D : Type} {B ND na nb : ℕ}
    (pmean : ℚ → ℚ) (qexp : ℚ → ℚ) (envelope_of : P → E)
    (batch_envelope_fn : E → D → Fin B → ℚ)
    (batch_orbitals : P → D →
      (Fin B → Fin ND → Fin na → Fin na → ℚ) × (Fin B → Fin ND → Fin nb → Fin nb → ℚ))
    (p : P) (x : D)
    (target : (Fin B → Fin na → Fin na → ℚ) × (Fin B → Fin nb → Fin nb → ℚ)) : ℚ :=
  let n : ℚ := na + nb
  let env : Fin B → ℚ := fun b => qexp (batch_envelope_fn (envelope_of p) x b / n)
  let o := batch_orbitals p x
  pmean (arrMean (fun b d i j => (target.1 b i j - env b * o.1 b d i j) ^ 2) +
    arrMean (fun b d i j => (target.2 b i j - env b * o.2 b d i j) ^ 2))

/-- Embedding of `loss_fn` (pretrain.py lines 155-173) in the `full_det=True`
case: the target is the concatenation-built combined matrix and the loss is
the `pmean` of the mean squared difference between it (broadcast over
determinants) and the envelope-scaled single-determinant orbitals
`batch_orbitals(p, x)[0]`. -/
def loss_fn_full {P E D : Type} {B ND na nb : ℕ}
    (pmean : ℚ → ℚ) (qexp : ℚ → ℚ) (envelope_of : P → E)
    (batch_envelope_fn : E → D → Fin B → ℚ)
    (batch_orbitals : P → D → Fin B → Fin ND → Fin (na + nb) → Fin (na + nb) → ℚ)
    (p : P) (x : D)
    (target : (Fin B → Fin na → Fin na → ℚ) × (Fin B → Fin nb → Fin nb → ℚ)) : ℚ :=
  let n : ℚ := na + nb
  let env : Fin B → ℚ := fun b => qexp (batch_envelope_fn (envelope_of p) x b / n)
  let tgt : Fin B → Fin (na + nb) → Fin (na + nb) → ℚ :=
    fun b => combined_target (target.1 b) (target.2 b)
  let o := batch_orbitals p x
  pmean (arrMean (fun b d i j => (tgt b i j - env b * o b d i j) ^ 2))

/-- Embedding of the body of `pretrain_step` (pretrain.py lines 151-182),
generic in the loss: evaluate `value_and_grad` of the loss at the current
parameters, `pmean` the gradient, turn it into an update with the optax
`optimizer_update`, apply the update with `optax.apply_updates`, then perform
one `mcmc.mh_update` with the updated parameters, and return
`(data, params, state, loss_val, logprob)`. -/
def pretrain_step_core {P D S K Tgt : Type} {B : ℕ}
    (loss : P → D → Tgt → ℚ)
    (batch_network : P → D → Fin B → ℚ)
    (optimizer_update : P → S → P → P × S)
    (grad : (P → ℚ) → P → P)
    (pmean_tree : P → P)
    (apply_updates : P → P → P)
    (mh_update : P → (P → D → Fin B → ℚ) → D → K → (Fin B → ℚ) → ℕ →
      D × K × (Fin B → ℚ) × ℕ)
    (data : D) (target : Tgt) (params : P) (state : S) (key : K)
    (logprob : Fin B → ℚ) : D × P × S × ℚ × (Fin B → ℚ) :=
  let loss_val := loss params data target
  let search_direction := grad (fun p => loss p data target) params
  let sd := pmean_tree search_direction
  let us := optimizer_update sd state params
  let params2 := apply_updates params us.1
  let m := mh_update params2 batch_network data key logprob 0
  (m.1, params2, us.2, loss_val, m.2.2.1)

/-- Embedding of `make_pretrain_step` (pretrain.py lines 123-184): select the
loss according to `full_det` and return the step function.  In the typed
embedding the sequence returned by the network's `batch_orbitals` has
differently shaped elements in the two cases, so both variants are passed and
`full_det` selects which one the loss reads. -/
def make_pretrain_step {P E D S K : Type} {B ND na nb : ℕ} (full_det : Bool)
    (pmean : ℚ → ℚ) (qexp : ℚ → ℚ) (envelope_of : P → E)
    (batch_envelope_fn : E → D → Fin B → ℚ)
    (batch_orbitals_split : P → D →
      (Fin B → Fin ND → Fin na → Fin na → ℚ) × (Fin B → Fin ND → Fin nb → Fin nb → ℚ))
    (batch_orbitals_full : P → D → Fin B → Fin ND → Fin (na + nb) → Fin (na + nb) → ℚ)
    (batch_network : P → D → Fin B → ℚ)
    (optimizer_update : P → S → P → P × S)
    (grad : (P → ℚ) → P → P)
    (pmean_tree : P → P)
    (apply_updates : P → P → P)
    (mh_update : P → (P → D → Fin B → ℚ) → D → K → (Fin B → ℚ) → ℕ →
      D × K × (Fin B → ℚ) × ℕ) :
    D → ((Fin B → Fin na → Fin na → ℚ) × (Fin B → Fin nb → Fin nb → ℚ)) →
      P → S → K → (Fin B → ℚ) → D × P × S × ℚ × (Fin B → ℚ) :=
  pretrain_step_core
    (if full_det then loss_fn_full pmean qexp envelope_of batch_envelope_fn batch_orbitals_full
     else loss_fn_split pmean qexp envelope_of batch_envelope_fn batch_orbitals_split)
    batch_network optimizer_update grad pmean_tree apply_updates mh_update

/-- The loop state of `pretrain_hartree_fock`: the MCMC configurations, the
network parameters, the optimizer state, the sharded RNG key and the running
log probability. -/
structure PretrainLoopState (P D S K : Type) (B : ℕ) where
  data : D
  params : P
  opt_state : S
  key : K
  logprob : Fin B → ℚ

/-- One iteration of the loop in `pretrain_hartree_fock` (pretrain.py lines
256-263): evaluate the Hartree-Fock target orbitals at the current
configurations (`eval_orbitals_hf` models `eval_orbitals(scf_approx, data,
electrons)`), split the RNG key with `kfac_jax.utils.p_split`, and run one
pretraining step. -/
def pretrain_iteration {P D S K Tgt : Type} {B : ℕ}
    (step : D → Tgt → P → S → K → (Fin B → ℚ) → D × P × S × ℚ × (Fin B → ℚ))
    (eval_orbitals_hf : D → Tgt)
    (p_split : K → K × K)
    (s : PretrainLoopState P D S K B) : PretrainLoopState P D S K B :=
  let target := eval_orbitals_hf s.data
  let ks := p_split s.key
  let r := step s.data target s.params s.opt_state ks.2 s.logprob
  ⟨r.1, r.2.1, r.2.2.1, ks.1, r.2.2.2.2⟩

/-- The loop of `pretrain_hartree_fock`: iterate `pretrain_iteration`. -/
def pretrain_loop {P D S K Tgt : Type} {B : ℕ}
    (step : D → Tgt → P → S → K → (Fin B → ℚ) → D × P × S × ℚ × (Fin B → ℚ))
    (eval_orbitals_hf : D → Tgt)
    (p_split : K → K × K)
    (init : PretrainLoopState P D S K B) : ℕ → PretrainLoopState P D S K B
  | 0 => init
  | n + 1 => pretrain_iteration step eval_orbitals_hf p_split
      (pretrain_loop step eval_orbitals_hf p_split init n)

/-- The state `pretrain_hartree_fock` starts its loop from (pretrain.py lines
232-254): the given configurations and parameters, the freshly initialised
optimizer state, the sharded key, and `logprob = 2 * batch_network(params,
data)`, i.e. the log of the density `psi^2` at the initial configurations. -/
def pretrain_init_state {P D S K : Type} {B : ℕ}
    (params : P) (data : D)
    (batch_network : P → D → Fin B → ℚ)
    (optimizer_init : P → S)
    (sharded_key : K) : PretrainLoopState P D S K B :=
  ⟨data, params, optimizer_init params, sharded_key,
    fun b => 2 * batch_network params data b⟩

/-- Embedding of `pretrain_hartree_fock` (pretrain.py lines 187-264):
initialise the optimizer state and the log probability, build the pretraining
step with `make_pretrain_step`, iterate it `iterations` times, and return the
final parameters and configurations. -/
def pretrain_hartree_fock {P E D S K : Type} {B ND na nb : ℕ} (full_det : Bool)
    (pmean : ℚ → ℚ) (qexp : ℚ → ℚ) (envelope_of : P → E)
    (batch_envelope_fn : E → D → Fin B → ℚ)
    (batch_orbitals_split : P → D →
      (Fin B → Fin ND → Fin na → Fin na → ℚ) × (Fin B → Fin ND → Fin nb → Fin nb → ℚ))
    (batch_orbitals_full : P → D → Fin B → Fin ND → Fin (na + nb) → Fin (na + nb) → ℚ)
    (batch_network : P → D → Fin B → ℚ)
    (optimizer_init : P → S)
    (optimizer_update : P → S → P → P × S)
    (grad : (P → ℚ) → P → P)
    (pmean_tree : P → P)
    (apply_updates : P → P → P)
    (mh_update : P → (P → D → Fin B → ℚ) → D → K → (Fin B → ℚ) → ℕ →
      D × K × (Fin B → ℚ) × ℕ)
    (eval_orbitals_hf : D → (Fin B → Fin na → Fin na → ℚ) × (Fin B → Fin nb → Fin nb → ℚ))
    (p_split : K → K × K)
    (params : P) (data : D) (sharded_key : K) (iterations : ℕ) : P × D :=
  let step := make_pretrain_step full_det pmean qexp envelope_of batch_envelope_fn
    batch_orbitals_split batch_orbitals_full batch_network optimizer_update grad
    pmean_tree apply_updates mh_update
  let final := pretrain_loop step eval_orbitals_hf p_split
    (pretrain_init_state params data batch_network optimizer_init sharded_key) iterations
  (final.params, final.data)

/-! ## Theorems -/

/-- Claim C1: for the periodic system of the PBC Hamiltonian test (lattice the
3x3 identity, fixed atoms, charges and network parameters, all absorbed into
the arbitrary periodic-feature consumer `g`), displacing any single electron's
position by any lattice vector with integer components leaves the value of
`local_energy` unchanged — exactly, hence in particular within the test's
tolerance of `4e-3` absolute (and therefore also within `4e-3` relative). -/
theorem local_energy_lattice_invariance {ne natom : ℕ}
    (g : (Fin ne → Fin natom → Fin 3 → ℚ) → (Fin ne → Fin ne → Fin 3 → ℚ) → ℚ)
    (atoms : Fin natom → Fin 3 → ℚ) (xs : Fin ne → Fin 3 → ℚ)
    (e : Fin ne) (v : Fin 3 → ℤ) :
    local_energy g atoms (displace xs e v) = local_energy g atoms xs ∧
    |local_energy g atoms (displace xs e v) - local_energy g atoms xs| ≤ 4 / 1000 := by
  have key : local_energy g atoms (displace xs e v) = local_energy g atoms xs := by
    unfold local_energy
    congr 1
    · funext i a c
      by_cases h : i = e
      · subst h
        simp only [displace, if_pos rfl, if_true]
        rw [show xs i c + (v c : ℚ) - atoms a c = xs i c - atoms a c + (v c : ℚ) by ring,
          Int.fract_add_int]
      · simp only [displace, if_neg h]
    · funext i j c
      by_cases hi : i = e <;> by_cases hj : j = e
      · subst hi; subst hj
        simp only [displace, if_pos rfl, if_true, sub_self]
      · subst hi
        simp only [displace, if_pos rfl, if_true, if_neg hj]
        rw [show xs i c + (v c : ℚ) - xs j c = xs i c - xs j c + (v c : ℚ) by ring,
          Int.fract_add_int]
      · subst hj
        simp only [displace, if_pos rfl, if_true, if_neg hi]
        rw [show xs i c - (xs j c + (v c : ℚ)) = xs i c - xs j c - (v c : ℚ) by ring,
          Int.fract_sub_int]
      · simp only [displace, if_neg hi, if_neg hj]
  refine ⟨key, ?_⟩
  rw [key, sub_self, abs_zero]
  norm_num

/-- Claim C5: `get_hf` always constructs an `Scf` object — from `pyscf_mol`
when one is supplied, and otherwise from `molecule`, `nspins` and `basis` —
and always calls its `run()` method exactly once before returning it, so the
returned object carries run count 1, a completed self-consistent-field
solution. -/
theorem get_hf_runs_scf_once {Mole Molecule : Type} (molecule : Option Molecule)
    (nspins : Option (Nat × Nat)) (basis : Option String)
    (pyscf_mol : Option Mole) (restricted : Bool) :
    get_hf molecule nspins basis pyscf_mol restricted =
      { source := match pyscf_mol with
          | some m => ScfSource.fromPyscfMol m restricted
          | none => ScfSource.fromMolecule molecule nspins basis restricted,
        runCount := 1 } := by
  cases pyscf_mol <;> rfl

/-- Claim C7: the input check of `eval_orbitals` raises `ValueError` (chained
from the underlying `AttributeError`) exactly when `pos` is neither a NumPy
array nor an object supporting a `copy()` method; NumPy arrays
(`isNumpyArray`) and JAX arrays (`hasCopyMethod`) pass the check. -/
theorem eval_orbitals_input_validation {α : Type} (pos : PyPos α) :
    eval_orbitals_check pos =
      if pos.isNumpyArray = false ∧ pos.hasCopyMethod = false then
        Except.error (PyError.valueErrorFrom PyError.attributeError)
      else Except.ok pos.value := by
  obtain ⟨n, c, v⟩ := pos
  cases n <;> cases c <;> simp [eval_orbitals_check]

/-- Claim C8: when `pyscf_mol` is supplied, the result of `get_hf` does not
depend on the `molecule`, `nspins` and `basis` arguments: two calls with the
same `pyscf_mol` and `restricted` flag but different other arguments return
the same object. -/
theorem get_hf_pyscf_mol_noninterference {Mole Molecule : Type} (m : Mole)
    (mol1 mol2 : Option Molecule) (ns1 ns2 : Option (Nat × Nat))
    (b1 b2 : Option String) (restricted : Bool) :
    get_hf mol1 ns1 b1 (some m) restricted =
      get_hf mol2 ns2 b2 (some m) restricted := rfl

/-- Claim C6: `eval_orbitals` returns matrices with the same leading index
type as `pos`; the alpha matrix has trailing shape `(na, na)` and its
`(i, j)` entry is the `j`-th (lowest) molecular orbital of the alpha channel
evaluated at electron `i` (one of the first `na` electrons), while the beta
matrix has trailing shape `(nb, nb)` and its `(i, j)` entry is the `j`-th
molecular orbital of the beta channel at electron `na + i` (the remaining
electrons); the reshape feeds electron `e`'s coordinate `c` from the flat
position entry `3*e + c`. -/
theorem eval_orbitals_aufbau {α ι : Type} (na nb nbasis : ℕ)
    (hna : na ≤ nbasis) (hnb : nb ≤ nbasis)
    (eval_mos : ((ι × Fin (na + nb)) → Fin 3 → α) →
      ((ι × Fin (na + nb)) → Fin nbasis → α) × ((ι × Fin (na + nb)) → Fin nbasis → α))
    (pos : ι → Fin ((na + nb) * 3) → α) :
    (∀ (b : ι) (i j : Fin na),
      (eval_orbitals na nb nbasis hna hnb eval_mos pos).1 b i j =
        (eval_mos (reshape_electrons pos)).1
          (b, ⟨(i : ℕ), by have := i.isLt; omega⟩) ⟨(j : ℕ), by have := j.isLt; omega⟩) ∧
    (∀ (b : ι) (i j : Fin nb),
      (eval_orbitals na nb nbasis hna hnb eval_mos pos).2 b i j =
        (eval_mos (reshape_electrons pos)).2
          (b, ⟨na + (i : ℕ), by have := i.isLt; omega⟩) ⟨(j : ℕ), by have := j.isLt; omega⟩) ∧
    (∀ (b : ι) (e : Fin (na + nb)) (c : Fin 3),
      reshape_electrons pos (b, e) c =
        pos b ⟨3 * (e : ℕ) + (c : ℕ), by have := e.isLt; have := c.isLt; omega⟩) :=
  ⟨fun _ _ _ => rfl, fun _ _ _ => rfl, fun _ _ _ => rfl⟩

/-- Concrete molecular-orbital evaluator used by the witness of claim C6. -/
def mosW6 : ((Fin 1 × Fin (1 + 1)) → Fin 3 → ℚ) →
    ((Fin 1 × Fin (1 + 1)) → Fin 2 → ℚ) × ((Fin 1 × Fin (1 + 1)) → Fin 2 → ℚ) :=
  fun _ => (fun _ _ => 1, fun _ _ => 2)

/-- Concrete position array used by the witness of claim C6. -/
def posW6 : Fin 1 → Fin ((1 + 1) * 3) → ℚ := fun _ _ => 0

/-- Witness for claim C6 at a concrete instance (`na = nb = 1`,
`nbasis = 2`). -/
theorem eval_orbitals_aufbau_witness :
    (1 ≤ 2) ∧ (1 ≤ 2) ∧
    ((∀ (b : Fin 1) (i j : Fin 1),
      (eval_orbitals 1 1 2 (by decide) (by decide) mosW6 posW6).1 b i j =
        (mosW6 (reshape_electrons posW6)).1
          (b, ⟨(i : ℕ), by have := i.isLt; omega⟩) ⟨(j : ℕ), by have := j.isLt; omega⟩) ∧
    (∀ (b : Fin 1) (i j : Fin 1),
      (eval_orbitals 1 1 2 (by decide) (by decide) mosW6 posW6).2 b i j =
        (mosW6 (reshape_electrons posW6)).2
          (b, ⟨1 + (i : ℕ), by have := i.isLt; omega⟩) ⟨(j : ℕ), by have := j.isLt; omega⟩) ∧
    (∀ (b : Fin 1) (e : Fin (1 + 1)) (c : Fin 3),
      reshape_electrons posW6 (b, e) c =
        posW6 b ⟨3 * (e : ℕ) + (c : ℕ), by have := e.isLt; have := c.isLt; omega⟩)) :=
  ⟨by decide, by decide,
    eval_orbitals_aufbau 1 1 2 (by decide) (by decide) mosW6 posW6⟩

/-- The sign of a real number multiplied by its absolute value recovers the
number. -/
theorem real_sign_mul_abs (x : ℝ) : Real.sign x * |x| = x := by
  rcases lt_trichotomy x 0 with h | h | h
  · rw [Real.sign_of_neg h, abs_of_neg h]; ring
  · rw [h, Real.sign_zero, abs_zero, mul_zero]
  · rw [Real.sign_of_pos h, abs_of_pos h, one_mul]

/-- Claim C3: `eval_slater` returns a pair `(sign, log_abs)` in which `sign`
is the product of the signs of the determinants of the alpha- and beta-spin
orbital matrices returned by `eval_orbitals` and `log_abs` is the sum of the
logarithms of their absolute values; the wavefunction value is only
represented through this pair, `sign * exp(log_abs)` recovering
`det(alpha) * det(beta)` whenever the determinants are nonzero. -/
theorem eval_slater_log_domain {ι : Type} (na nb nbasis : ℕ)
    (hna : na ≤ nbasis) (hnb : nb ≤ nbasis)
    (eval_mos : ((ι × Fin (na + nb)) → Fin 3 → ℝ) →
      ((ι × Fin (na + nb)) → Fin nbasis → ℝ) × ((ι × Fin (na + nb)) → Fin nbasis → ℝ))
    (pos : ι → Fin ((na + nb) * 3) → ℝ)
    (hA : ∀ b : ι,
      (Matrix.of ((eval_orbitals na nb nbasis hna hnb eval_mos pos).1 b)).det ≠ 0)
    (hB : ∀ b : ι,
      (Matrix.of ((eval_orbitals na nb nbasis hna hnb eval_mos pos).2 b)).det ≠ 0) :
    (∀ b : ι, (eval_slater na nb nbasis hna hnb eval_mos pos).1 b =
      Real.sign (Matrix.of ((eval_orbitals na nb nbasis hna hnb eval_mos pos).1 b)).det *
        Real.sign (Matrix.of ((eval_orbitals na nb nbasis hna hnb eval_mos pos).2 b)).det) ∧
    (∀ b : ι, (eval_slater na nb nbasis hna hnb eval_mos pos).2 b =
      Real.log |(Matrix.of ((eval_orbitals na nb nbasis hna hnb eval_mos pos).1 b)).det| +
        Real.log |(Matrix.of ((eval_orbitals na nb nbasis hna hnb eval_mos pos).2 b)).det|) ∧
    (∀ b : ι, (eval_slater na nb nbasis hna hnb eval_mos pos).1 b *
        Real.exp ((eval_slater na nb nbasis hna hnb eval_mos pos).2 b) =
      (Matrix.of ((eval_orbitals na nb nbasis hna hnb eval_mos pos).1 b)).det *
        (Matrix.of ((eval_orbitals na nb nbasis hna hnb eval_mos pos).2 b)).det) := by
  refine ⟨fun b => rfl, fun b => rfl, fun b => ?_⟩
  show Real.sign _ * Real.sign _ * Real.exp (Real.log _ + Real.log _) = _
  rw [Real.exp_add, Real.exp_log (abs_pos.mpr (hA b)), Real.exp_log (abs_pos.mpr (hB b))]
  calc Real.sign (Matrix.of ((eval_orbitals na nb nbasis hna hnb eval_mos pos).1 b)).det *
        Real.sign (Matrix.of ((eval_orbitals na nb nbasis hna hnb eval_mos pos).2 b)).det *
        (|(Matrix.of ((eval_orbitals na nb nbasis hna hnb eval_mos pos).1 b)).det| *
          |(Matrix.of ((eval_orbitals na nb nbasis hna hnb eval_mos pos).2 b)).det|) =
      Real.sign (Matrix.of ((eval_orbitals na nb nbasis hna hnb eval_mos pos).1 b)).det *
        |(Matrix.of ((eval_orbitals na nb nbasis hna hnb eval_mos pos).1 b)).det| *
        (Real.sign (Matrix.of ((eval_orbitals na nb nbasis hna hnb eval_mos pos).2 b)).det *
          |(Matrix.of ((eval_orbitals na nb nbasis hna hnb eval_mos pos).2 b)).det|) := by
        ring
    _ = _ := by rw [real_sign_mul_abs, real_sign_mul_abs]

/-- Concrete molecular-orbital evaluator used by the witness of claim C3. -/
def mosW3 : ((Fin 1 × Fin (1 + 1)) → Fin 3 → ℝ) →
    ((Fin 1 × Fin (1 + 1)) → Fin 1 → ℝ) × ((Fin 1 × Fin (1 + 1)) → Fin 1 → ℝ) :=
  fun _ => (fun _ _ => 1, fun _ _ => 1)

/-- Concrete position array used by the witness of claim C3. -/
def posW3 : Fin 1 → Fin ((1 + 1) * 3) → ℝ := fun _ _ => 0

/-- Witness for claim C3 at a concrete instance (`na = nb = nbasis = 1`,
both orbital matrices the 1x1 identity, so both determinants are nonzero). -/
theorem eval_slater_log_domain_witness :
    (1 ≤ 1) ∧
    (∀ b : Fin 1,
      (Matrix.of ((eval_orbitals 1 1 1 (le_refl 1) (le_refl 1) mosW3 posW3).1 b)).det ≠ 0) ∧
    (∀ b : Fin 1,
      (Matrix.of ((eval_orbitals 1 1 1 (le_refl 1) (le_refl 1) mosW3 posW3).2 b)).det ≠ 0) ∧
    ((∀ b : Fin 1, (eval_slater 1 1 1 (le_refl 1) (le_refl 1) mosW3 posW3).1 b =
      Real.sign (Matrix.of ((eval_orbitals 1 1 1 (le_refl 1) (le_refl 1) mosW3 posW3).1 b)).det *
        Real.sign (Matrix.of ((eval_orbitals 1 1 1 (le_refl 1) (le_refl 1) mosW3 posW3).2 b)).det) ∧
    (∀ b : Fin 1, (eval_slater 1 1 1 (le_refl 1) (le_refl 1) mosW3 posW3).2 b =
      Real.log |(Matrix.of ((eval_orbitals 1 1 1 (le_refl 1) (le_refl 1) mosW3 posW3).1 b)).det| +
        Real.log |(Matrix.of ((eval_orbitals 1 1 1 (le_refl 1) (le_refl 1) mosW3 posW3).2 b)).det|) ∧
    (∀ b : Fin 1, (eval_slater 1 1 1 (le_refl 1) (le_refl 1) mosW3 posW3).1 b *
        Real.exp ((eval_slater 1 1 1 (le_refl 1) (le_refl 1) mosW3 posW3).2 b) =
      (Matrix.of ((eval_orbitals 1 1 1 (le_refl 1) (le_refl 1) mosW3 posW3).1 b)).det *
        (Matrix.of ((eval_orbitals 1 1 1 (le_refl 1) (le_refl 1) mosW3 posW3).2 b)).det)) :=
  have hA : ∀ b : Fin 1,
      (Matrix.of ((eval_orbitals 1 1 1 (le_refl 1) (le_refl 1) mosW3 posW3).1 b)).det ≠ 0 :=
    fun b => by rw [Matrix.det_fin_one]; exact one_ne_zero
  have hB : ∀ b : Fin 1,
      (Matrix.of ((eval_orbitals 1 1 1 (le_refl 1) (le_refl 1) mosW3 posW3).2 b)).det ≠ 0 :=
    fun b => by rw [Matrix.det_fin_one]; exact one_ne_zero
  ⟨le_refl 1, hA, hB,
    eval_slater_log_domain 1 1 1 (le_refl 1) (le_refl 1) mosW3 posW3 hA hB⟩

/-- The concatenation-built combined target of the `full_det` branch equals
the block-diagonal matrix with the alpha block top-left, the beta block
bottom-right and zeros elsewhere. -/
theorem combined_target_eq_spec_block_diag {na nb : ℕ}
    (t0 : Fin na → Fin na → ℚ) (t1 : Fin nb → Fin nb → ℚ) :
    combined_target t0 t1 = spec_block_diag t0 t1 := by
  funext i j
  simp only [combined_target, vcat, hcat, spec_block_diag]
  by_cases hi : (i : ℕ) < na
  · rw [dif_pos hi]
    by_cases hj : (j : ℕ) < na
    · rw [dif_pos hj, dif_pos ⟨hi, hj⟩]
    · rw [dif_neg hj, dif_neg (by omega : ¬((i : ℕ) < na ∧ (j : ℕ) < na)),
        dif_neg (by omega : ¬(na ≤ (i : ℕ) ∧ na ≤ (j : ℕ)))]
  · rw [dif_neg hi]
    by_cases hj : (j : ℕ) < na
    · rw [dif_pos hj, dif_neg (by omega : ¬((i : ℕ) < na ∧ (j : ℕ) < na)),
        dif_neg (by omega : ¬(na ≤ (i : ℕ) ∧ na ≤ (j : ℕ)))]
    · rw [dif_neg hj, dif_neg (by omega : ¬((i : ℕ) < na ∧ (j : ℕ) < na)),
        dif_pos (⟨by omega, by omega⟩ : na ≤ (i : ℕ) ∧ na ≤ (j : ℕ))]

/-- Claim C2: `pretrain_hartree_fock` performs exactly `iterations`
optimisation steps (the loop starts at the initial state and each successor
iteration applies one `pretrain_iteration`, which evaluates the Hartree-Fock
targets at the current configurations and runs one pretraining step), and
returns the final parameters and configurations.  The step minimises, via the
gradient handed to the optax `optimizer_update` and applied with
`optax.apply_updates`, the loss whose value is the device-averaged (`pmean`)
mean squared difference between the Hartree-Fock target orbitals and the
envelope-scaled network orbitals — summed over the two spin channels when
`full_det` is false, and computed against the block-diagonal combined target
(alpha block top-left, beta block bottom-right, zeros elsewhere) when
`full_det` is true. -/
theorem pretrain_hartree_fock_spec {P E D S K : Type} {B ND na nb : ℕ}
    (full_det : Bool)
    (pmean : ℚ → ℚ) (qexp : ℚ → ℚ) (envelope_of : P → E)
    (batch_envelope_fn : E → D → Fin B → ℚ)
    (batch_orbitals_split : P → D →
      (Fin B → Fin ND → Fin na → Fin na → ℚ) × (Fin B → Fin ND → Fin nb → Fin nb → ℚ))
    (batch_orbitals_full : P → D → Fin B → Fin ND → Fin (na + nb) → Fin (na + nb) → ℚ)
    (batch_network : P → D → Fin B → ℚ)
    (optimizer_init : P → S)
    (optimizer_update : P → S → P → P × S)
    (grad : (P → ℚ) → P → P)
    (pmean_tree : P → P)
    (apply_updates : P → P → P)
    (mh_update : P → (P → D → Fin B → ℚ) → D → K → (Fin B → ℚ) → ℕ →
      D × K × (Fin B → ℚ) × ℕ)
    (eval_orbitals_hf : D →
      (Fin B → Fin na → Fin na → ℚ) × (Fin B → Fin nb → Fin nb → ℚ))
    (p_split : K → K × K)
    (params : P) (data : D) (sharded_key : K) (iterations : ℕ) :
    (let step := make_pretrain_step full_det pmean qexp envelope_of batch_envelope_fn
      batch_orbitals_split batch_orbitals_full batch_network optimizer_update grad
      pmean_tree apply_updates mh_update
    let init := pretrain_init_state params data batch_network optimizer_init sharded_key
    -- exactly `iterations` steps, returning the updated params and data
    (pretrain_hartree_fock full_det pmean qexp envelope_of batch_envelope_fn
        batch_orbitals_split batch_orbitals_full batch_network optimizer_init
        optimizer_update grad pmean_tree apply_updates mh_update eval_orbitals_hf
        p_split params data sharded_key iterations =
      ((pretrain_loop step eval_orbitals_hf p_split init iterations).params,
       (pretrain_loop step eval_orbitals_hf p_split init iterations).data)) ∧
    (pretrain_loop step eval_orbitals_hf p_split init 0 = init) ∧
    (∀ n : ℕ, pretrain_loop step eval_orbitals_hf p_split init (n + 1) =
      pretrain_iteration step eval_orbitals_hf p_split
        (pretrain_loop step eval_orbitals_hf p_split init n)) ∧
    -- each iteration evaluates the HF targets at the current configurations
    (∀ s : PretrainLoopState P D S K B,
      pretrain_iteration step eval_orbitals_hf p_split s =
        ⟨(step s.data (eval_orbitals_hf s.data) s.params s.opt_state (p_split s.key).2
            s.logprob).1,
         (step s.data (eval_orbitals_hf s.data) s.params s.opt_state (p_split s.key).2
            s.logprob).2.1,
         (step s.data (eval_orbitals_hf s.data) s.params s.opt_state (p_split s.key).2
            s.logprob).2.2.1,
         (p_split s.key).1,
         (step s.data (eval_orbitals_hf s.data) s.params s.opt_state (p_split s.key).2
            s.logprob).2.2.2.2⟩) ∧
    -- the step is the generic step with the loss selected by `full_det`
    (make_pretrain_step true pmean qexp envelope_of batch_envelope_fn
        batch_orbitals_split batch_orbitals_full batch_network optimizer_update grad
        pmean_tree apply_updates mh_update =
      pretrain_step_core (loss_fn_full pmean qexp envelope_of batch_envelope_fn
          batch_orbitals_full)
        batch_network optimizer_update grad pmean_tree apply_updates mh_update) ∧
    (make_pretrain_step false pmean qexp envelope_of batch_envelope_fn
        batch_orbitals_split batch_orbitals_full batch_network optimizer_update grad
        pmean_tree apply_updates mh_update =
      pretrain_step_core (loss_fn_split pmean qexp envelope_of batch_envelope_fn
          batch_orbitals_split)
        batch_network optimizer_update grad pmean_tree apply_updates mh_update) ∧
    -- one step: value and gradient of the loss, pmean, optax update, apply,
    -- then the MCMC move; the loss value reported is at the pre-update params
    (∀ (loss : P → D →
        ((Fin B → Fin na → Fin na → ℚ) × (Fin B → Fin nb → Fin nb → ℚ)) → ℚ)
      (data' : D)
      (target' : (Fin B → Fin na → Fin na → ℚ) × (Fin B → Fin nb → Fin nb → ℚ))
      (params' : P) (state' : S) (key' : K) (logprob' : Fin B → ℚ),
      pretrain_step_core loss batch_network optimizer_update grad pmean_tree
          apply_updates mh_update data' target' params' state' key' logprob' =
        ((mh_update (apply_updates params' (optimizer_update (pmean_tree
              (grad (fun q => loss q data' target') params')) state' params').1)
            batch_network data' key' logprob' 0).1,
         apply_updates params' (optimizer_update (pmean_tree
            (grad (fun q => loss q data' target') params')) state' params').1,
         (optimizer_update (pmean_tree
            (grad (fun q => loss q data' target') params')) state' params').2,
         loss params' data' target',
         (mh_update (apply_updates params' (optimizer_update (pmean_tree
              (grad (fun q => loss q data' target') params')) state' params').1)
            batch_network data' key' logprob' 0).2.2.1)) ∧
    -- the split loss is the pmean of the per-channel mean squared differences
    (∀ (p : P) (x : D)
      (t : (Fin B → Fin na → Fin na → ℚ) × (Fin B → Fin nb → Fin nb → ℚ)),
      loss_fn_split pmean qexp envelope_of batch_envelope_fn batch_orbitals_split
          p x t =
        pmean
          ((∑ b, ∑ d, ∑ i, ∑ j,
              (t.1 b i j -
                qexp (batch_envelope_fn (envelope_of p) x b / ((na : ℚ) + nb)) *
                  (batch_orbitals_split p x).1 b d i j) ^ 2) /
              ((B : ℚ) * ND * na * na) +
           (∑ b, ∑ d, ∑ i, ∑ j,
              (t.2 b i j -
                qexp (batch_envelope_fn (envelope_of p) x b / ((na : ℚ) + nb)) *
                  (batch_orbitals_split p x).2 b d i j) ^ 2) /
              ((B : ℚ) * ND * nb * nb))) ∧
    -- the full-determinant loss is the pmean of the mean squared difference
    -- against the block-diagonal combined target
    (∀ (p : P) (x : D)
      (t : (Fin B → Fin na → Fin na → ℚ) × (Fin B → Fin nb → Fin nb → ℚ)),
      loss_fn_full pmean qexp envelope_of batch_envelope_fn batch_orbitals_full
          p x t =
        pmean
          ((∑ b, ∑ d, ∑ i, ∑ j,
              (spec_block_diag (t.1 b) (t.2 b) i j -
                qexp (batch_envelope_fn (envelope_of p) x b / ((na : ℚ) + nb)) *
                  batch_orbitals_full p x b d i j) ^ 2) /
              ((B : ℚ) * ND * ((na : ℚ) + nb) * ((na : ℚ) + nb))))) := by
  refine ⟨rfl, rfl, fun n => rfl, fun s => rfl, rfl, rfl, fun loss d t p s k l => rfl,
    fun p x t => rfl, fun p x t => ?_⟩
  simp only [loss_fn_full, arrMean, combined_target_eq_spec_block_diag, Nat.cast_add]

/-- Claim C4: every pretraining step performs, after the parameter update,
exactly one Metropolis-Hastings update of the configurations: the returned
configurations and log probability are the first and third components of
`mh_update` applied to the updated parameters, the network's log magnitude
`batch_network`, the current configurations, key and log probability (with
block index 0); and `pretrain_hartree_fock` initialises the threaded log
probability as twice the log magnitude of the network on the initial data,
i.e. the log of the density `psi^2`. -/
theorem pretrain_mcmc_coupling {P D S K Tgt : Type} {B : ℕ}
    (loss : P → D → Tgt → ℚ)
    (batch_network : P → D → Fin B → ℚ)
    (optimizer_update : P → S → P → P × S)
    (grad : (P → ℚ) → P → P)
    (pmean_tree : P → P)
    (apply_updates : P → P → P)
    (mh_update : P → (P → D → Fin B → ℚ) → D → K → (Fin B → ℚ) → ℕ →
      D × K × (Fin B → ℚ) × ℕ)
    (optimizer_init : P → S)
    (data : D) (target : Tgt) (params : P) (state : S) (key : K)
    (logprob : Fin B → ℚ) :
    ((pretrain_step_core loss batch_network optimizer_update grad pmean_tree
        apply_updates mh_update data target params state key logprob).1 =
      (mh_update
        (pretrain_step_core loss batch_network optimizer_update grad pmean_tree
          apply_updates mh_update data target params state key logprob).2.1
        batch_network data key logprob 0).1) ∧
    ((pretrain_step_core loss batch_network optimizer_update grad pmean_tree
        apply_updates mh_update data target params state key logprob).2.2.2.2 =
      (mh_update
        (pretrain_step_core loss batch_network optimizer_update grad pmean_tree
          apply_updates mh_update data target params state key logprob).2.1
        batch_network data key logprob 0).2.2.1) ∧
    ((pretrain_step_core loss batch_network optimizer_update grad pmean_tree
        apply_updates mh_update data target params state key logprob).2.1 =
      apply_updates params (optimizer_update (pmean_tree
        (grad (fun q => loss q data target) params)) state params).1) ∧
    (∀ (params0 : P) (data0 : D) (sharded_key : K) (b : Fin B),
      (pretrain_init_state params0 data0 batch_network optimizer_init
          sharded_key).logprob b = 2 * batch_network params0 data0 b) :=
  ⟨rfl, rfl, rfl, fun _ _ _ _ => rfl⟩

end Ferminet
